import Mathlib

/-!
Verification development for the JIRA-to-SQLite synchronization script
(`qib-jira.py`).  The script's core is embedded shallowly:

* `md5hex` is a full implementation of the MD5 digest (RFC 1321) over the
  UTF-8 bytes of a string, matching Python's `hashlib.md5(...).hexdigest()`.
* `calculate_md5` mirrors the script's fingerprint function: `None`
  arguments are skipped entirely, the rest are stringified and fed to the
  digest with no separator.
* `normalize` mirrors the construction of the 25-element `data` tuple from
  a fetched issue, including which nested attribute accesses are guarded
  against null and which are not.
* `processIssue` / `runLoop` / `update` mirror the per-record
  skip/update/insert decision, the pagination loop, and the transaction /
  exception structure of the `update` function.

Machine integers do not occur in the script's logic except inside MD5,
where all words are `Nat` reduced mod 2^32 explicitly.
-/

/-! ## MD5 (RFC 1321) -/

/-- Two to the 32nd, the modulus for all MD5 word arithmetic. -/
def w32 : Nat := 4294967296

/-- Bitwise complement on 32-bit words represented as `Nat`. -/
def not32 (x : Nat) : Nat := Nat.xor x 4294967295

/-- Left-rotation of a 32-bit word by `c` bits. -/
def rotl32 (x c : Nat) : Nat := (Nat.lor (x <<< c) (x >>> (32 - c))) % w32

/-- Round constants `K[i] = floor(2^32 * abs(sin(i+1)))` of MD5. -/
def md5K : List Nat :=
  [0xd76aa478, 0xe8c7b756, 0x242070db, 0xc1bdceee,
   0xf57c0faf, 0x4787c62a, 0xa8304613, 0xfd469501,
   0x698098d8, 0x8b44f7af, 0xffff5bb1, 0x895cd7be,
   0x6b901122, 0xfd987193, 0xa679438e, 0x49b40821,
   0xf61e2562, 0xc040b340, 0x265e5a51, 0xe9b6c7aa,
   0xd62f105d, 0x02441453, 0xd8a1e681, 0xe7d3fbc8,
   0x21e1cde6, 0xc33707d6, 0xf4d50d87, 0x455a14ed,
   0xa9e3e905, 0xfcefa3f8, 0x676f02d9, 0x8d2a4c8a,
   0xfffa3942, 0x8771f681, 0x6d9d6122, 0xfde5380c,
   0xa4beea44, 0x4bdecfa9, 0xf6bb4b60, 0xbebfbc70,
   0x289b7ec6, 0xeaa127fa, 0xd4ef3085, 0x04881d05,
   0xd9d4d039, 0xe6db99e5, 0x1fa27cf8, 0xc4ac5665,
   0xf4292244, 0x432aff97, 0xab9423a7, 0xfc93a039,
   0x655b59c3, 0x8f0ccc92, 0xffeff47d, 0x85845dd1,
   0x6fa87e4f, 0xfe2ce6e0, 0xa3014314, 0x4e0811a1,
   0xf7537e82, 0xbd3af235, 0x2ad7d2bb, 0xeb86d391]

/-- Per-round left-rotation amounts of MD5. -/
def md5S : List Nat :=
  [7, 12, 17, 22, 7, 12, 17, 22, 7, 12, 17, 22, 7, 12, 17, 22,
   5,  9, 14, 20, 5,  9, 14, 20, 5,  9, 14, 20, 5,  9, 14, 20,
   4, 11, 16, 23, 4, 11, 16, 23, 4, 11, 16, 23, 4, 11, 16, 23,
   6, 10, 15, 21, 6, 10, 15, 21, 6, 10, 15, 21, 6, 10, 15, 21]

/-- Running state of the MD5 compression function: four 32-bit words. -/
structure MD5State where
  a : Nat
  b : Nat
  c : Nat
  d : Nat
deriving DecidableEq

/-- Initial MD5 chaining value. -/
def md5Init : MD5State := ⟨0x67452301, 0xefcdab89, 0x98badcfe, 0x10325476⟩

/-- The nonlinear function and message index of round `i`. -/
def md5FG (st : MD5State) (i : Nat) : Nat × Nat :=
  if i < 16 then
    (Nat.lor (Nat.land st.b st.c) (Nat.land (not32 st.b) st.d), i)
  else if i < 32 then
    (Nat.lor (Nat.land st.d st.b) (Nat.land (not32 st.d) st.c), (5 * i + 1) % 16)
  else if i < 48 then
    (Nat.xor (Nat.xor st.b st.c) st.d, (3 * i + 5) % 16)
  else
    (Nat.xor st.c (Nat.lor st.b (not32 st.d)), (7 * i) % 16)

/-- One MD5 round applied to the state, given the 16 message words. -/
def md5Round (m : List Nat) (st : MD5State) (i : Nat) : MD5State :=
  let fg := md5FG st i
  let tmp := (st.a + fg.1 + md5K.getD i 0 + m.getD fg.2 0) % w32
  ⟨st.d, (st.b + rotl32 tmp (md5S.getD i 0)) % w32, st.b, st.c⟩

/-- Little-endian decomposition of `x` into `n` bytes. -/
def leBytes (n x : Nat) : List Nat :=
  (List.range n).map (fun i => (x >>> (8 * i)) % 256)

/-- The 16 little-endian 32-bit words of one 64-byte chunk. -/
def chunkWords (chunk : List Nat) : List Nat :=
  (List.range 16).map (fun j =>
    chunk.getD (4 * j) 0 + 256 * chunk.getD (4 * j + 1) 0 +
    65536 * chunk.getD (4 * j + 2) 0 + 16777216 * chunk.getD (4 * j + 3) 0)

/-- MD5 compression: absorb one 64-byte chunk into the chaining state. -/
def md5Chunk (st : MD5State) (chunk : List Nat) : MD5State :=
  let m := chunkWords chunk
  let r := (List.range 64).foldl (md5Round m) st
  ⟨(st.a + r.a) % w32, (st.b + r.b) % w32, (st.c + r.c) % w32, (st.d + r.d) % w32⟩

/-- MD5 padding: a `0x80` byte, zeros to 56 mod 64, then the 64-bit
little-endian bit length of the original message. -/
def md5Pad (msg : List Nat) : List Nat :=
  let z := (119 - msg.length % 64) % 64
  msg ++ [128] ++ List.replicate z 0 ++ leBytes 8 ((msg.length * 8) % (w32 * w32))

/-- Split a byte list into 64-byte chunks; the counter bounds recursion. -/
def chunks64Go : Nat → List Nat → List (List Nat)
  | 0, _ => []
  | _, [] => []
  | n + 1, b :: rest => (b :: rest).take 64 :: chunks64Go n ((b :: rest).drop 64)

/-- Split a byte list into 64-byte chunks. -/
def chunks64 (l : List Nat) : List (List Nat) := chunks64Go l.length l

/-- Lowercase hexadecimal digit for `n < 16`. -/
def hexDigit (n : Nat) : Char := "0123456789abcdef".toList.getD n '0'

/-- Two lowercase hex digits of one byte. -/
def hexByte (b : Nat) : List Char := [hexDigit (b / 16), hexDigit (b % 16)]

/-- The 32-character digest string of a final MD5 state (little-endian
bytes of `a`, `b`, `c`, `d` in order). -/
def md5Digest (st : MD5State) : String :=
  ⟨(leBytes 4 st.a ++ leBytes 4 st.b ++ leBytes 4 st.c ++ leBytes 4 st.d).foldr
    (fun b acc => hexByte b ++ acc) []⟩

/-- UTF-8 encoding of one Unicode code point. -/
def utf8Char (c : Char) : List Nat :=
  let n := c.toNat
  if n < 128 then [n]
  else if n < 2048 then [192 + n / 64, 128 + n % 64]
  else if n < 65536 then [224 + n / 4096, 128 + (n / 64) % 64, 128 + n % 64]
  else [240 + n / 262144, 128 + (n / 4096) % 64, 128 + (n / 64) % 64, 128 + n % 64]

/-- UTF-8 encoding of a string, as Python's `str.encode("utf-8")`. -/
def utf8Bytes (s : String) : List Nat :=
  s.toList.foldr (fun c acc => utf8Char c ++ acc) []

/-- MD5 hexdigest of the UTF-8 bytes of a string, as Python's
`hashlib.md5(s.encode("utf-8")).hexdigest()`. -/
def md5hex (s : String) : String :=
  md5Digest ((chunks64 (md5Pad (utf8Bytes s))).foldl md5Chunk md5Init)

set_option maxRecDepth 4000

/-! ## The fingerprint function `calculate_md5`

`calculate_md5(*args)` iterates the arguments, skips `None` entirely, and
feeds `str(arg).encode("utf-8")` of the rest to one running MD5 state.
Feeding chunks incrementally to `hashlib.md5` digests their
concatenation, and UTF-8 encoding is a homomorphism for concatenation, so
the digest equals `md5hex` of the concatenated stringified arguments.
Arguments reach the function already stringified here (see `toArgs`),
with `none` standing for Python `None`. -/

/-- Concatenation, with no separator, of the non-`None` arguments. -/
def md5args : List (Option String) → String
  | [] => ""
  | none :: rest => md5args rest
  | some s :: rest => s ++ md5args rest

/-- The script's `calculate_md5`: MD5 hexdigest of the stringified
non-`None` arguments, concatenated with no separator. -/
def calculate_md5 (args : List (Option String)) : String :=
  md5hex (md5args args)

/-! ## Remote records

A `RemoteIssue` models one issue object returned by `jira.search_issues`.
Every nested attribute the script dereferences is modelled as an `Option`,
with `none` standing for a null (or absent) attribute.  The script guards
some of these dereferences with a conditional expression and leaves others
unguarded; an unguarded dereference of a null attribute raises
`AttributeError` in Python, which the embedding renders as `Except.error`.
-/

/-- A JIRA user object: only the two attributes the script reads. -/
structure UserInfo where
  displayName : String
  accountId : String
deriving DecidableEq

/-- One worklog entry: only the two attributes the script reads. -/
structure WorklogEntry where
  timeSpent : String
  started : String
deriving DecidableEq

/-- An issue-type object: the script reads its `name` and its `id`. -/
structure IssueType where
  name : String
  id : String
deriving DecidableEq

/-- One fetched remote issue, restricted to the attributes the script
reads.  `timetracking` is the `timetracking` attribute; its payload is
the `raw` dict (`none` when `raw` is falsy), whose payload in turn is the
optional `timeSpent` entry. -/
structure RemoteIssue where
  key : Option String
  assignee : Option UserInfo
  created : Option String
  creator : Option UserInfo
  description : Option String
  duedate : Option String
  environment : Option String
  issuetype : Option IssueType
  labels : Option (List String)
  lastViewed : Option String
  priority : Option String
  project : Option String
  reporter : Option UserInfo
  resolution : Option String
  resolutiondate : Option String
  status : Option String
  summary : Option String
  updated : Option String
  timeoriginalestimate : Option Int
  aggregatetimeestimate : Option Int
  worklog : Option (List WorklogEntry)
  timetracking : Option (Option (Option String))
  customfield_10065 : Option String
deriving DecidableEq

/-! ## The normalized `data` tuple -/

/-- The 25-element `data` tuple the script builds for one issue, as a
structure with one field per tuple slot, in tuple order.  `issue_id`
holds `issue.fields.issuetype.id` exactly as in the source. -/
structure Data where
  assignee : Option String
  assignee_id : Option String
  created : Option String
  creator : Option String
  description : Option String
  due_date : Option String
  environment : Option String
  issue_type : String
  issue_key : String
  issue_id : String
  labels : String
  last_viewed : Option String
  priority : String
  project : String
  reporter : Option String
  resolution : Option String
  resolution_date : Option String
  status : Option String
  summary : Option String
  updated : Option String
  original_estimate : Option Int
  remaining_estimate : Option Int
  worklog : String
  time_tracking : Option String
  isp : String
deriving DecidableEq

/-- Unguarded attribute access: yields the value, or the Python
`AttributeError` raised when the attribute is null. -/
def attr (o : Option A) (nm : String) : Except String A :=
  match o with
  | some v => Except.ok v
  | none => Except.error ("AttributeError: " ++ nm)

/-- The script's worklog flattening: one segment per entry, joined by a
comma and space.  The comprehension's guard is redundant in the source
(an empty list yields an empty join either way). -/
def joinWorklog (l : List WorklogEntry) : String :=
  String.intercalate ", " (l.map (fun x => x.timeSpent ++ "|started:(" ++ x.started ++ ")"))

/-- Python `str()` of the custom classification field: null becomes the
literal string of the null marker, not a null placeholder. -/
def strOfIsp (o : Option String) : String :=
  match o with
  | some s => s
  | none => "None"

/-- The record normalizer: builds the `data` tuple for one issue.  The
guarded accesses (`assignee`, `creator`, `reporter`, `resolution`, the
`timetracking.raw` payload) tolerate null; the unguarded ones
(`issuetype`, `key`, `labels`, `priority`, `project`, `status`,
`worklog`, `timetracking`) raise when null, in the source's tuple
evaluation order. -/
def normalizeIssue (i : RemoteIssue) : Except String Data := do
  let it ← attr i.issuetype "issuetype"
  let k ← attr i.key "key"
  let labs ← attr i.labels "labels"
  let pri ← attr i.priority "priority"
  let proj ← attr i.project "project"
  let stat ← attr i.status "status"
  let wl ← attr i.worklog "worklog"
  let tt ← attr i.timetracking "timetracking"
  Except.ok
    { assignee := i.assignee.map (fun u => u.displayName)
      assignee_id := i.assignee.map (fun u => u.accountId)
      created := i.created
      creator := i.creator.map (fun u => u.displayName)
      description := i.description
      due_date := i.duedate
      environment := i.environment
      issue_type := it.name
      issue_key := k
      issue_id := it.id
      labels := String.intercalate ", " labs
      last_viewed := i.lastViewed
      priority := pri
      project := proj
      reporter := i.reporter.map (fun u => u.displayName)
      resolution := i.resolution
      resolution_date := i.resolutiondate
      status := stat
      summary := i.summary
      updated := i.updated
      original_estimate := i.timeoriginalestimate
      remaining_estimate := i.aggregatetimeestimate
      worklog := joinWorklog wl
      time_tracking := (match tt with | some v => v | none => none)
      isp := strOfIsp i.customfield_10065 }

/-- The `data` tuple in the order it is passed to `calculate_md5`, each
element stringified as Python `str()` would (integers via their decimal
representation, `None` kept as `none` to be skipped). -/
def toArgs (d : Data) : List (Option String) :=
  [d.assignee, d.assignee_id, d.created, d.creator, d.description,
   d.due_date, d.environment, some d.issue_type, some d.issue_key,
   some d.issue_id, some d.labels, d.last_viewed, some d.priority,
   some d.project, d.reporter, d.resolution, d.resolution_date, d.status,
   d.summary, d.updated, d.original_estimate.map (fun n => toString n),
   d.remaining_estimate.map (fun n => toString n), some d.worklog,
   d.time_tracking, some d.isp]

/-- The fingerprint of one normalized record. -/
def fpOf (d : Data) : String := calculate_md5 (toArgs d)

/-! ## The store and the per-record upsert decision -/

deriving instance DecidableEq for Except

/-- One persisted row of the `issues` table: the 25 data columns plus the
`md5_hash` column. -/
structure Row where
  data : Data
  md5 : String
deriving DecidableEq

/-- The `issues` table, in insertion order (SQLite scan order). -/
abbrev Store := List Row

/-- The first row whose `md5_hash` equals `h`, as the script's
`SELECT * FROM issues WHERE md5_hash = ?` then `fetchone()`. -/
def selectByMd5 (st : Store) (h : String) : Option Row :=
  st.find? (fun r => r.md5 == h)

/-- The first row whose `issue_key` equals `k`, as the script's
`SELECT * FROM issues WHERE issue_key = ?` then `fetchone()`. -/
def selectByKey (st : Store) (k : String) : Option Row :=
  st.find? (fun r => r.data.issue_key == k)

/-- The script's `UPDATE issues SET ... WHERE issue_key = ?`: every row
whose key matches is overwritten with the new data and fingerprint. -/
def updateRows (st : Store) (d : Data) (h : String) : Store :=
  st.map (fun r => if r.data.issue_key == d.issue_key then ⟨d, h⟩ else r)

/-- Which of the three outcomes the upsert decision took. -/
inductive UpsertAction where
  | skip
  | update
  | insert
deriving DecidableEq

/-- Per-pass counters, observational instrumentation for the number of
`INSERT` and `UPDATE` statements executed and records skipped. -/
structure Counts where
  inserts : Nat
  updates : Nat
  skips : Nat
deriving DecidableEq

/-- The all-zero counters at the start of a pass. -/
def Counts.zero : Counts := ⟨0, 0, 0⟩

/-- Increment the counter of the action taken. -/
def bump (c : Counts) (a : UpsertAction) : Counts :=
  match a with
  | UpsertAction.skip => { c with skips := c.skips + 1 }
  | UpsertAction.update => { c with updates := c.updates + 1 }
  | UpsertAction.insert => { c with inserts := c.inserts + 1 }

/-- Process one fetched issue: normalize it, fingerprint it, then apply
the script's decision — skip if a row with the same fingerprint exists
(checked first, regardless of identifier), else update if a row with the
same issue key exists, else insert. -/
def processIssue (st : Store) (i : RemoteIssue) : Except String (Store × UpsertAction) := do
  let d ← normalizeIssue i
  let h := fpOf d
  match selectByMd5 st h with
  | some _ => Except.ok (st, UpsertAction.skip)
  | none =>
    match selectByKey st d.issue_key with
    | some _ => Except.ok (updateRows st d h, UpsertAction.update)
    | none => Except.ok (st ++ [⟨d, h⟩], UpsertAction.insert)

/-- Process a sequence of fetched issues in order, stopping at the first
error, accumulating counters. -/
def processRecords (st : Store) (c : Counts) : List RemoteIssue → Except String (Store × Counts)
  | [] => Except.ok (st, c)
  | i :: rest => do
    let r ← processIssue st i
    processRecords r.1 (bump c r.2) rest

/-! ## The pagination loop and the `update` entry point -/

/-- The pagination loop of `update`.  `fetch startAt` models one
`jira.search_issues(jql, startAt, maxResults)` call; `off` records the
offsets fetched so far (observational).  The loop processes each page,
stops when a page is strictly shorter than `maxResults`, and otherwise
advances the offset by exactly `maxResults`.  `fuel` bounds the number of
iterations so the function is total; `none` means the fuel ran out. -/
def runLoop (fetch : Nat → Except String (List RemoteIssue)) (maxResults : Nat) :
    Nat → Store → Counts → List Nat → Nat → Option (Except String (Store × Counts × List Nat))
  | _, _, _, _, 0 => none
  | startAt, st, c, off, fuel + 1 =>
    match fetch startAt with
    | Except.error e => some (Except.error e)
    | Except.ok issues =>
      match processRecords st c issues with
      | Except.error e => some (Except.error e)
      | Except.ok (st2, c2) =>
        if issues.length < maxResults then some (Except.ok (st2, c2, off ++ [startAt]))
        else runLoop fetch maxResults (startAt + maxResults) st2 c2 (off ++ [startAt]) fuel

/-- The observable outcome of one `update` run that returned normally. -/
structure RunResult where
  committed : Store
  logged : Option String
  pinged : Bool
  counts : Option Counts
deriving DecidableEq

/-- The script's `update` function.  Missing credentials raise
(`Except.error`) before anything else.  The whole fetch/process/commit
loop runs inside a broad `try`/`except` that logs any error and returns
normally: on an error the transaction is never committed, so the
committed store stays `dbBefore`, the error is recorded in `logged`, and
the health check is not pinged.  On success the final store is committed
and the health check pinged.  `some none` models running out of fuel. -/
def update (email token : Option String)
    (fetch : Nat → Except String (List RemoteIssue)) (dbBefore : Store)
    (fuel : Nat) : Except String (Option RunResult) :=
  if email.isNone ∨ token.isNone then
    Except.error "Jira email and token are required"
  else
    match runLoop fetch 100 0 dbBefore Counts.zero [] fuel with
    | none => Except.ok none
    | some (Except.error e) =>
      Except.ok (some ⟨dbBefore, some e, false, none⟩)
    | some (Except.ok (st, c, _)) =>
      Except.ok (some ⟨st, none, true, some c⟩)

/-- Fetching from a fixed remote list: the page at `startAt` is the next
`maxResults` issues, as the JIRA search endpoint pages a stable result. -/
def listFetch (remote : List RemoteIssue) (maxResults : Nat) :
    Nat → Except String (List RemoteIssue) :=
  fun startAt => Except.ok ((remote.drop startAt).take maxResults)

/-- An error-free fetch function given by an arbitrary page sequence. -/
def pureFetch (f : Nat → List RemoteIssue) : Nat → Except String (List RemoteIssue) :=
  fun startAt => Except.ok (f startAt)

/-- The outcome of the fallible setup steps of `update` that run after
the credential check but before the broad `try` (source lines 105-165):
the JIRA client construction — a network/authentication call that can
raise — then `sqlite3.connect` and the `CREATE TABLE IF NOT EXISTS`
statement.  `none` means they all succeeded; `some e` is the first error
raised, which propagates out of `update` uncaught.  These are
external-collaborator effects, so the embedding takes their outcome as
an input. -/
abbrev SetupOutcome := Option String

/-- The script's `update` function with its pre-`try` setup steps made
explicit.  The credential check runs first and raises on missing
credentials; next the client construction, store connection and table
creation run, and any error there propagates out of the function
uncaught; only then does the fetch/process/commit loop run inside the
broad `try`/`except`, whose errors are logged and swallowed exactly as
in `update`.  With a successful setup this coincides with `update`
(`updateFull_setup_ok`). -/
def updateFull (email token : Option String) (setup : SetupOutcome)
    (fetch : Nat → Except String (List RemoteIssue)) (dbBefore : Store)
    (fuel : Nat) : Except String (Option RunResult) :=
  if email.isNone ∨ token.isNone then
    Except.error "Jira email and token are required"
  else
    match setup with
    | some e => Except.error e
    | none =>
      match runLoop fetch 100 0 dbBefore Counts.zero [] fuel with
      | none => Except.ok none
      | some (Except.error e) =>
        Except.ok (some ⟨dbBefore, some e, false, none⟩)
      | some (Except.ok (st, c, _)) =>
        Except.ok (some ⟨st, none, true, some c⟩)

/-! ## The query builder -/

/-- The JQL query string built by `update` from the formatted cutoff date
(`now − days`, formatted `yyyy-mm-dd` by the excluded datetime layer) and
the project identifier.  The source performs no validation here: the
defined-but-never-called `valid_key` helper notwithstanding, every
project string, including the empty one, is interpolated as is. -/
def jql_query (one_month_ago_str project : String) : String :=
  "createdDate >= '" ++ one_month_ago_str ++ "' AND updated >= '" ++
    one_month_ago_str ++ "' AND project=" ++ project

/-- Modelled from the spec: the spec's query-builder contract additionally
requires a non-empty project identifier and rejects the empty one; the
source contains no such check.  This definition follows the spec's words
for comparison with `jql_query`. -/
def jqlQuerySpec (one_month_ago_str project : String) : Option String :=
  if project = "" then none
  else some (jql_query one_month_ago_str project)

/-! ## Derived store predicates -/

/-- Keys of the rows of a store, in scan order. -/
def rowKeys (st : Store) : List String := st.map (fun r => r.data.issue_key)

/-- Fingerprints stored in the `md5_hash` column, in scan order. -/
def rowHashes (st : Store) : List String := st.map (fun r => r.md5)

/-- No two rows of the store share an issue key.  The table declares no
uniqueness constraint, so this is a property of the writes, not the
schema. -/
def uniqueKeys (st : Store) : Prop := (rowKeys st).Nodup

instance (st : Store) : Decidable (uniqueKeys st) :=
  inferInstanceAs (Decidable ((rowKeys st).Nodup))

/-! ## Basic lemmas about the per-record step -/

theorem processIssue_eq (st : Store) (i : RemoteIssue) (d : Data)
    (hn : normalizeIssue i = Except.ok d) :
    processIssue st i =
      match selectByMd5 st (fpOf d) with
      | some _ => Except.ok (st, UpsertAction.skip)
      | none =>
        match selectByKey st d.issue_key with
        | some _ => Except.ok (updateRows st d (fpOf d), UpsertAction.update)
        | none => Except.ok (st ++ [⟨d, fpOf d⟩], UpsertAction.insert) := by
  simp [processIssue, hn, bind, Except.bind]

theorem processIssue_ok_normalize (st : Store) (i : RemoteIssue) (r : Store × UpsertAction)
    (h : processIssue st i = Except.ok r) : ∃ d, normalizeIssue i = Except.ok d := by
  cases hn : normalizeIssue i with
  | error e =>
    rw [processIssue, hn] at h
    simp [bind, Except.bind] at h
  | ok d => exact ⟨d, rfl⟩

theorem processRecords_append (st : Store) (c : Counts) (as bs : List RemoteIssue) :
    processRecords st c (as ++ bs) =
      match processRecords st c as with
      | Except.error e => Except.error e
      | Except.ok (st1, c1) => processRecords st1 c1 bs := by
  induction as generalizing st c with
  | nil => simp [processRecords]
  | cons i rest ih =>
    simp only [List.cons_append, processRecords]
    cases h : processIssue st i with
    | error e => simp [h, bind, Except.bind]
    | ok r => simp [h, bind, Except.bind, ih]

/-! ## The pagination loop over a fixed remote list -/

theorem offsets_step (off : List Nat) (startAt m L : Nat) (hm : 0 < m) (h : m ≤ L - startAt) :
    (off ++ [startAt]) ++ (List.range ((L - (startAt + m)) / m + 1)).map
        (fun j => startAt + m + m * j) =
      off ++ (List.range ((L - startAt) / m + 1)).map (fun j => startAt + m * j) := by
  have hdiv : (L - startAt) / m = (L - (startAt + m)) / m + 1 := by
    rw [Nat.div_eq_sub_div hm h, Nat.sub_sub]
  rw [hdiv, List.append_assoc, List.singleton_append]
  congr 1
  conv_rhs => rw [List.range_succ_eq_map, List.map_cons, List.map_map]
  have h0 : startAt + m * 0 = startAt := by ring
  rw [h0]
  congr 1
  apply List.map_congr_left
  intro j _
  show startAt + m + m * j = startAt + m * (j + 1)
  ring

/-- Running the pagination loop against a fixed remote list is the same
as processing the suffix of the list from the current offset in one go;
the fetched offsets advance by exactly `maxResults` per page, and one more
page than `(remaining records) / maxResults` is fetched (the final, short
one included). -/
theorem runLoop_listFetch_eq (remote : List RemoteIssue) (m : Nat) (hm : 0 < m) :
    ∀ (fuel startAt : Nat) (st : Store) (c : Counts) (off : List Nat),
      remote.length - startAt < fuel →
      runLoop (listFetch remote m) m startAt st c off fuel =
        some (match processRecords st c (remote.drop startAt) with
          | Except.error e => Except.error e
          | Except.ok (st2, c2) =>
            Except.ok (st2, c2,
              off ++ (List.range ((remote.length - startAt) / m + 1)).map
                (fun j => startAt + m * j))) := by
  intro fuel
  induction fuel with
  | zero => intro startAt st c off hf; exact absurd hf (by omega)
  | succ f ih =>
    intro startAt st c off hf
    have hdl : (remote.drop startAt).length = remote.length - startAt :=
      List.length_drop startAt remote
    by_cases hshort : remote.length - startAt < m
    · have htake : (remote.drop startAt).take m = remote.drop startAt :=
        List.take_of_length_le (by omega)
      simp only [runLoop, listFetch]
      rw [htake]
      cases hp : processRecords st c (remote.drop startAt) with
      | error e => simp [hp]
      | ok p =>
        obtain ⟨st2, c2⟩ := p
        have hlen : (remote.drop startAt).length < m := by omega
        have hdiv : (remote.length - startAt) / m = 0 := Nat.div_eq_of_lt hshort
        simp [hp, hlen, hdiv, List.range_succ]
        exact fun h => absurd h (by omega)
    · push_neg at hshort
      have hlen : ((remote.drop startAt).take m).length = m := by
        rw [List.length_take]; omega
      have hsplit : remote.drop startAt =
          (remote.drop startAt).take m ++ remote.drop (startAt + m) := by
        conv_lhs => rw [← List.take_append_drop m (remote.drop startAt)]
        rw [List.drop_drop]
      have hps : processRecords st c (remote.drop startAt) =
          match processRecords st c ((remote.drop startAt).take m) with
          | Except.error e => Except.error e
          | Except.ok (st1, c1) => processRecords st1 c1 (remote.drop (startAt + m)) := by
        conv_lhs => rw [hsplit]
        rw [processRecords_append]
      simp only [runLoop, listFetch]
      cases hp : processRecords st c ((remote.drop startAt).take m) with
      | error e =>
        rw [hp] at hps
        simp [hp, hps]
      | ok p =>
        obtain ⟨st1, c1⟩ := p
        rw [hp] at hps
        have hcond : ¬ ((remote.drop startAt).take m).length < m := by omega
        rw [hps]
        have hrec := ih (startAt + m) st1 c1 (off ++ [startAt]) (by omega)
        simp only [hp, hcond, if_false]
        rw [hrec]
        cases hq : processRecords st1 c1 (remote.drop (startAt + m)) with
        | error e => simp
        | ok q =>
          obtain ⟨st2, c2⟩ := q
          simp only [Option.some.injEq, Except.ok.injEq, Prod.mk.injEq, true_and]
          exact offsets_step off startAt m remote.length hm hshort

/-! ## Preservation of per-key uniqueness -/

theorem rowKeys_updateRows (st : Store) (d : Data) (h : String) :
    rowKeys (updateRows st d h) = rowKeys st := by
  unfold rowKeys updateRows
  rw [List.map_map]
  apply List.map_congr_left
  intro r _
  show (if r.data.issue_key == d.issue_key then (⟨d, h⟩ : Row) else r).data.issue_key =
    r.data.issue_key
  by_cases hk : r.data.issue_key = d.issue_key
  · simp [hk]
  · simp [hk]

theorem processIssue_uniqueKeys (st : Store) (i : RemoteIssue) (st2 : Store)
    (a : UpsertAction) (hu : uniqueKeys st)
    (h : processIssue st i = Except.ok (st2, a)) : uniqueKeys st2 := by
  obtain ⟨d, hn⟩ := processIssue_ok_normalize st i (st2, a) h
  rw [processIssue_eq st i d hn] at h
  cases hmd : selectByMd5 st (fpOf d) with
  | some r =>
    rw [hmd] at h
    cases h
    exact hu
  | none =>
    rw [hmd] at h
    cases hk : selectByKey st d.issue_key with
    | some r =>
      rw [hk] at h
      cases h
      unfold uniqueKeys
      rw [rowKeys_updateRows]
      exact hu
    | none =>
      rw [hk] at h
      cases h
      unfold uniqueKeys rowKeys
      rw [List.map_append]
      rw [List.nodup_append]
      refine ⟨hu, List.nodup_singleton _, ?_⟩
      intro k hk1 hk2
      simp only [List.map_cons, List.map_nil, List.mem_singleton] at hk2
      subst hk2
      unfold selectByKey at hk
      rw [List.find?_eq_none] at hk
      obtain ⟨r, hr, hrk⟩ := List.mem_map.mp hk1
      exact hk r hr (by simp [hrk])

theorem processRecords_uniqueKeys (rs : List RemoteIssue) :
    ∀ (st : Store) (c : Counts) (st2 : Store) (c2 : Counts), uniqueKeys st →
      processRecords st c rs = Except.ok (st2, c2) → uniqueKeys st2 := by
  induction rs with
  | nil =>
    intro st c st2 c2 hu h
    rw [processRecords] at h
    cases h
    exact hu
  | cons i rest ih =>
    intro st c st2 c2 hu h
    rw [processRecords] at h
    cases hp : processIssue st i with
    | error e => rw [hp] at h; simp [bind, Except.bind] at h
    | ok r =>
      rw [hp] at h
      simp only [bind, Except.bind] at h
      exact ih r.1 (bump c r.2) st2 c2
        (processIssue_uniqueKeys st i r.1 r.2 hu (by rw [hp])) h

theorem runLoop_uniqueKeys (fetch : Nat → Except String (List RemoteIssue)) (m : Nat) :
    ∀ (fuel startAt : Nat) (st : Store) (c : Counts) (off : List Nat)
      (st2 : Store) (c2 : Counts) (off2 : List Nat), uniqueKeys st →
      runLoop fetch m startAt st c off fuel = some (Except.ok (st2, c2, off2)) →
      uniqueKeys st2 := by
  intro fuel
  induction fuel with
  | zero =>
    intro startAt st c off st2 c2 off2 hu h
    rw [runLoop] at h
    cases h
  | succ f ih =>
    intro startAt st c off st2 c2 off2 hu h
    rw [runLoop] at h
    cases hfe : fetch startAt with
    | error e => simp only [hfe] at h; simp at h
    | ok issues =>
      simp only [hfe] at h
      cases hp : processRecords st c issues with
      | error e => simp only [hp] at h; simp at h
      | ok p =>
        obtain ⟨st1, c1⟩ := p
        simp only [hp] at h
        have hu1 : uniqueKeys st1 := processRecords_uniqueKeys issues st c st1 c1 hu hp
        by_cases hshort : issues.length < m
        · rw [if_pos hshort] at h
          simp only [Option.some.injEq, Except.ok.injEq, Prod.mk.injEq] at h
          obtain ⟨h1, -, -⟩ := h
          rw [← h1]
          exact hu1
        · rw [if_neg hshort] at h
          exact ih (startAt + m) st1 c1 (off ++ [startAt]) st2 c2 off2 hu1 h

theorem update_uniqueKeys (email token : Option String)
    (fetch : Nat → Except String (List RemoteIssue)) (db : Store) (fuel : Nat)
    (res : RunResult) (hu : uniqueKeys db)
    (h : update email token fetch db fuel = Except.ok (some res)) :
    uniqueKeys res.committed := by
  unfold update at h
  by_cases hcred : email.isNone ∨ token.isNone
  · rw [if_pos hcred] at h
    cases h
  · rw [if_neg hcred] at h
    cases hrl : runLoop fetch 100 0 db Counts.zero [] fuel with
    | none => rw [hrl] at h; cases h
    | some r =>
      rw [hrl] at h
      cases r with
      | error e =>
        cases h
        exact hu
      | ok q =>
        obtain ⟨st, c, off⟩ := q
        cases h
        exact runLoop_uniqueKeys fetch 100 fuel 0 db Counts.zero [] st c off hu hrl

/-! ## Elimination lemmas for the Except chain -/

theorem bind_ok {A B : Type} {e : Except String A} {f : A → Except String B} {b : B}
    (h : (e >>= f) = Except.ok b) : ∃ a, e = Except.ok a ∧ f a = Except.ok b := by
  cases e with
  | error msg => simp [bind, Except.bind] at h
  | ok a => exact ⟨a, rfl, by simpa [bind, Except.bind] using h⟩

theorem attr_ok {A : Type} {o : Option A} {nm : String} {a : A}
    (h : attr o nm = Except.ok a) : o = some a := by
  cases o with
  | none => simp [attr] at h
  | some v => simp [attr] at h; rw [h]

/-- A successfully normalized record carries the remote issue's key. -/
theorem normalizeIssue_key (i : RemoteIssue) (d : Data)
    (h : normalizeIssue i = Except.ok d) : i.key = some d.issue_key := by
  unfold normalizeIssue at h
  obtain ⟨it, hit, h⟩ := bind_ok h
  obtain ⟨k, hk, h⟩ := bind_ok h
  obtain ⟨labs, hlabs, h⟩ := bind_ok h
  obtain ⟨pri, hpri, h⟩ := bind_ok h
  obtain ⟨proj, hproj, h⟩ := bind_ok h
  obtain ⟨stat, hstat, h⟩ := bind_ok h
  obtain ⟨wl, hwl, h⟩ := bind_ok h
  obtain ⟨tt, htt, h⟩ := bind_ok h
  cases h
  exact attr_ok hk

/-! ## Lookup characterizations -/

theorem selectByMd5_isSome_iff (st : Store) (h : String) :
    (selectByMd5 st h).isSome = true ↔ h ∈ rowHashes st := by
  unfold selectByMd5 rowHashes
  rw [List.find?_isSome]
  constructor
  · rintro ⟨r, hr, hbeq⟩
    have hrh : r.md5 = h := by simpa using hbeq
    rw [← hrh]
    exact List.mem_map_of_mem _ hr
  · intro hmem
    obtain ⟨r, hr, hrm⟩ := List.mem_map.mp hmem
    exact ⟨r, hr, by simp [hrm]⟩

theorem selectByKey_isSome_iff (st : Store) (k : String) :
    (selectByKey st k).isSome = true ↔ k ∈ rowKeys st := by
  unfold selectByKey rowKeys
  rw [List.find?_isSome]
  constructor
  · rintro ⟨r, hr, hbeq⟩
    have hrh : r.data.issue_key = k := by simpa using hbeq
    rw [← hrh]
    exact List.mem_map_of_mem _ hr
  · intro hmem
    obtain ⟨r, hr, hrm⟩ := List.mem_map.mp hmem
    exact ⟨r, hr, by simp [hrm]⟩

/-! ## A pass over fresh, pairwise-distinct records only skips or inserts -/

theorem processRecords_ok_normalize (rs : List RemoteIssue) :
    ∀ (st : Store) (c : Counts) (st2 : Store) (c2 : Counts),
      processRecords st c rs = Except.ok (st2, c2) →
      ∀ i ∈ rs, ∃ d, normalizeIssue i = Except.ok d := by
  induction rs with
  | nil => intro st c st2 c2 _ i hi; cases hi
  | cons j rest ih =>
    intro st c st2 c2 h i hi
    rw [processRecords] at h
    obtain ⟨r, hr, h2⟩ := bind_ok h
    cases hi with
    | head => exact processIssue_ok_normalize st j r hr
    | tail _ hmem => exact ih r.1 (bump c r.2) st2 c2 h2 i hmem

/-- Processing records whose keys are absent from the store and pairwise
distinct only appends rows, and afterwards every record's fingerprint is
present in the store. -/
theorem processRecords_fresh (rs : List RemoteIssue) :
    ∀ (st : Store) (c : Counts) (st2 : Store) (c2 : Counts),
      (∀ i ∈ rs, i.key ∉ (rowKeys st).map some) →
      List.Pairwise (fun a b => a.key ≠ b.key) rs →
      processRecords st c rs = Except.ok (st2, c2) →
      (∃ ext, st2 = st ++ ext) ∧
      (∀ i ∈ rs, ∀ d, normalizeIssue i = Except.ok d → fpOf d ∈ rowHashes st2) := by
  induction rs with
  | nil =>
    intro st c st2 c2 _ _ h
    rw [processRecords] at h
    cases h
    exact ⟨⟨[], (List.append_nil st).symm⟩, fun i hi => absurd hi (List.not_mem_nil i)⟩
  | cons i rest ih =>
    intro st c st2 c2 hdisj hdist h
    rw [processRecords] at h
    obtain ⟨r, hr, h2⟩ := bind_ok h
    obtain ⟨d, hn⟩ := processIssue_ok_normalize st i r hr
    have hkey : i.key = some d.issue_key := normalizeIssue_key i d hn
    rw [processIssue_eq st i d hn] at hr
    cases hmd : selectByMd5 st (fpOf d) with
    | some row =>
      rw [hmd] at hr
      cases hr
      have hfp : fpOf d ∈ rowHashes st := by
        rw [← selectByMd5_isSome_iff]
        rw [hmd]
        rfl
      obtain ⟨⟨ext, hext⟩, hfps⟩ := ih st (bump c UpsertAction.skip) st2 c2
        (fun j hj => hdisj j (List.mem_cons_of_mem i hj)) hdist.of_cons h2
      refine ⟨⟨ext, hext⟩, ?_⟩
      intro j hj d2 hn2
      cases hj with
      | head =>
        have hd2 : d2 = d := by
          rw [hn] at hn2
          cases hn2
          rfl
        subst hd2
        rw [hext]
        unfold rowHashes at hfp ⊢
        rw [List.map_append]
        exact List.mem_append_left _ hfp
      | tail _ hmem => exact hfps j hmem d2 hn2
    | none =>
      rw [hmd] at hr
      cases hk : selectByKey st d.issue_key with
      | some row =>
        exfalso
        have hkin : d.issue_key ∈ rowKeys st := by
          rw [← selectByKey_isSome_iff]
          rw [hk]
          rfl
        have : i.key ∈ (rowKeys st).map some := by
          rw [hkey]
          exact List.mem_map_of_mem some hkin
        exact hdisj i (List.mem_cons_self i rest) this
      | none =>
        rw [hk] at hr
        cases hr
        have hdisj1 : ∀ j ∈ rest, j.key ∉ (rowKeys (st ++ [⟨d, fpOf d⟩])).map some := by
          intro j hj hmem
          unfold rowKeys at hmem
          rw [List.map_append, List.map_append] at hmem
          rcases List.mem_append.mp hmem with hl | hr2
          · exact hdisj j (List.mem_cons_of_mem i hj) hl
          · simp only [List.map_cons, List.map_nil, List.mem_singleton] at hr2
            have hne : i.key ≠ j.key := (List.pairwise_cons.mp hdist).1 j hj
            rw [hkey] at hne
            exact hne hr2.symm
        obtain ⟨⟨ext, hext⟩, hfps⟩ := ih (st ++ [⟨d, fpOf d⟩]) (bump c UpsertAction.insert)
          st2 c2 hdisj1 hdist.of_cons h2
        refine ⟨⟨⟨d, fpOf d⟩ :: ext, by rw [hext, List.append_assoc]; rfl⟩, ?_⟩
        intro j hj d2 hn2
        cases hj with
        | head =>
          have hd2 : d2 = d := by
            rw [hn] at hn2
            cases hn2
            rfl
          subst hd2
          rw [hext]
          unfold rowHashes
          rw [List.map_append]
          apply List.mem_append_left
          rw [List.map_append]
          apply List.mem_append_right
          simp
        | tail _ hmem => exact hfps j hmem d2 hn2

/-- Processing records whose fingerprints are all already stored leaves
the store untouched and only increments the skip counter. -/
theorem processRecords_all_skips (rs : List RemoteIssue) :
    ∀ (st : Store) (c : Counts),
      (∀ i ∈ rs, ∃ d, normalizeIssue i = Except.ok d ∧ fpOf d ∈ rowHashes st) →
      processRecords st c rs =
        Except.ok (st, ⟨c.inserts, c.updates, c.skips + rs.length⟩) := by
  induction rs with
  | nil =>
    intro st c _
    rw [processRecords]
    rfl
  | cons i rest ih =>
    intro st c hall
    obtain ⟨d, hn, hfp⟩ := hall i (List.mem_cons_self i rest)
    have hmd : (selectByMd5 st (fpOf d)).isSome = true :=
      (selectByMd5_isSome_iff st (fpOf d)).mpr hfp
    rw [processRecords]
    rw [processIssue_eq st i d hn]
    cases hsel : selectByMd5 st (fpOf d) with
    | none => rw [hsel] at hmd; cases hmd
    | some row =>
      have hrest := ih st (bump c UpsertAction.skip)
        (fun j hj => hall j (List.mem_cons_of_mem i hj))
      simp only [bind, Except.bind]
      rw [hrest]
      simp only [bump, List.length_cons]
      have harith : c.skips + 1 + rest.length = c.skips + (rest.length + 1) := by omega
      rw [harith]

/-! ## Shape of the fetched offsets for an arbitrary page sequence -/

theorem range_map_shift (off : List Nat) (startAt m k : Nat) :
    (off ++ [startAt]) ++ (List.range k).map (fun j => startAt + m + m * j) =
      off ++ (List.range (k + 1)).map (fun j => startAt + m * j) := by
  rw [List.append_assoc, List.singleton_append]
  congr 1
  conv_rhs => rw [List.range_succ_eq_map, List.map_cons, List.map_map]
  have h0 : startAt + m * 0 = startAt := by ring
  rw [h0]
  congr 1
  apply List.map_congr_left
  intro j _
  show startAt + m + m * j = startAt + m * (j + 1)
  ring

theorem processIssue_isOk (st : Store) (i : RemoteIssue) (d : Data)
    (hn : normalizeIssue i = Except.ok d) :
    ∃ r, processIssue st i = Except.ok r := by
  rw [processIssue_eq st i d hn]
  cases hmd : selectByMd5 st (fpOf d) with
  | some row => exact ⟨(st, UpsertAction.skip), rfl⟩
  | none =>
    cases hk : selectByKey st d.issue_key with
    | some row => exact ⟨(updateRows st d (fpOf d), UpsertAction.update), rfl⟩
    | none => exact ⟨(st ++ [⟨d, fpOf d⟩], UpsertAction.insert), rfl⟩

theorem processRecords_isOk (rs : List RemoteIssue) :
    ∀ (st : Store) (c : Counts),
      (∀ i ∈ rs, ∃ d, normalizeIssue i = Except.ok d) →
      ∃ st2 c2, processRecords st c rs = Except.ok (st2, c2) := by
  induction rs with
  | nil => intro st c _; exact ⟨st, c, rfl⟩
  | cons i rest ih =>
    intro st c hall
    obtain ⟨d, hn⟩ := hall i (List.mem_cons_self i rest)
    obtain ⟨r, hr⟩ := processIssue_isOk st i d hn
    obtain ⟨st2, c2, h2⟩ := ih r.1 (bump c r.2)
      (fun j hj => hall j (List.mem_cons_of_mem i hj))
    refine ⟨st2, c2, ?_⟩
    rw [processRecords, hr]
    simpa [bind, Except.bind] using h2

/-- Whenever the loop returns normally, the offsets it fetched form an
arithmetic progression stepping by exactly `maxResults`, every page
before the last was at least `maxResults` long (so it did not stop the
loop), and the last fetched page was strictly shorter than `maxResults`:
the short page is the sole way the loop ends normally. -/
theorem runLoop_pure_shape (f : Nat → List RemoteIssue) (m : Nat) :
    ∀ (fuel startAt : Nat) (st : Store) (c : Counts) (off : List Nat)
      (st2 : Store) (c2 : Counts) (off2 : List Nat),
      runLoop (pureFetch f) m startAt st c off fuel = some (Except.ok (st2, c2, off2)) →
      ∃ k, 0 < k ∧
        off2 = off ++ (List.range k).map (fun j => startAt + m * j) ∧
        (∀ j, j + 1 < k → m ≤ (f (startAt + m * j)).length) ∧
        (∀ j, j + 1 = k → (f (startAt + m * j)).length < m) := by
  intro fuel
  induction fuel with
  | zero =>
    intro startAt st c off st2 c2 off2 h
    rw [runLoop] at h
    cases h
  | succ fl ih =>
    intro startAt st c off st2 c2 off2 h
    rw [runLoop] at h
    simp only [pureFetch] at h
    cases hp : processRecords st c (f startAt) with
    | error e => simp only [hp] at h; simp at h
    | ok p =>
      obtain ⟨st1, c1⟩ := p
      simp only [hp] at h
      by_cases hshort : (f startAt).length < m
      · rw [if_pos hshort] at h
        simp only [Option.some.injEq, Except.ok.injEq, Prod.mk.injEq] at h
        obtain ⟨-, -, hoff⟩ := h
        refine ⟨1, Nat.one_pos, ?_, ?_, ?_⟩
        · rw [← hoff]
          congr 1
        · intro j hj; omega
        · intro j hj
          have hj0 : j = 0 := by omega
          subst hj0
          simpa using hshort
      · rw [if_neg hshort] at h
        obtain ⟨k, hkpos, hoff, hfull, hlast⟩ :=
          ih (startAt + m) st1 c1 (off ++ [startAt]) st2 c2 off2 h
        refine ⟨k + 1, Nat.succ_pos k, ?_, ?_, ?_⟩
        · rw [hoff, range_map_shift]
        · intro j hj
          cases j with
          | zero => simpa using Nat.le_of_not_lt hshort
          | succ j2 =>
            have := hfull j2 (by omega)
            have hidx : startAt + m + m * j2 = startAt + m * (j2 + 1) := by ring
            rw [hidx] at this
            exact this
        · intro j hj
          obtain ⟨j2, hj2⟩ : ∃ j2, j = j2 + 1 := ⟨k - 1, by omega⟩
          subst hj2
          have := hlast j2 (by omega)
          have hidx : startAt + m + m * j2 = startAt + m * (j2 + 1) := by ring
          rw [hidx] at this
          exact this

/-- Conversely: if the page at offset index `i` is the first short one,
every record up to it normalizes, and the fuel exceeds `i`, the loop
returns normally after fetching exactly the offsets `0, m, ..., m*i` —
in particular there is no fetch call past the first short page. -/
theorem runLoop_pure_terminates (f : Nat → List RemoteIssue) (m : Nat) :
    ∀ (i fuel startAt : Nat) (st : Store) (c : Counts) (off : List Nat),
      (∀ j, j < i → m ≤ (f (startAt + m * j)).length) →
      (f (startAt + m * i)).length < m →
      (∀ j, j ≤ i → ∀ r ∈ f (startAt + m * j), ∃ d, normalizeIssue r = Except.ok d) →
      i < fuel →
      ∃ st2 c2, runLoop (pureFetch f) m startAt st c off fuel =
        some (Except.ok (st2, c2, off ++ (List.range (i + 1)).map (fun j => startAt + m * j))) := by
  intro i
  induction i with
  | zero =>
    intro fuel startAt st c off _ hshort hnorm hfuel
    obtain ⟨fl, rfl⟩ : ∃ fl, fuel = fl + 1 := ⟨fuel - 1, by omega⟩
    have hnorm0 : ∀ r ∈ f startAt, ∃ d, normalizeIssue r = Except.ok d := by
      have := hnorm 0 (Nat.le_refl 0)
      simpa using this
    obtain ⟨st2, c2, hp⟩ := processRecords_isOk (f startAt) st c hnorm0
    have hshort0 : (f startAt).length < m := by simpa using hshort
    refine ⟨st2, c2, ?_⟩
    rw [runLoop]
    simp only [pureFetch, hp]
    rw [if_pos hshort0]
    congr 2
  | succ i2 ih =>
    intro fuel startAt st c off hfull hshort hnorm hfuel
    obtain ⟨fl, rfl⟩ : ∃ fl, fuel = fl + 1 := ⟨fuel - 1, by omega⟩
    have hnorm0 : ∀ r ∈ f startAt, ∃ d, normalizeIssue r = Except.ok d := by
      have := hnorm 0 (by omega)
      simpa using this
    obtain ⟨st1, c1, hp⟩ := processRecords_isOk (f startAt) st c hnorm0
    have hfull0 : m ≤ (f startAt).length := by
      have := hfull 0 (by omega)
      simpa using this
    have hidx : ∀ j, startAt + m + m * j = startAt + m * (j + 1) := by
      intro j; ring
    obtain ⟨st2, c2, hrec⟩ := ih fl (startAt + m) st1 c1 (off ++ [startAt])
      (fun j hj => by rw [hidx j]; exact hfull (j + 1) (by omega))
      (by rw [hidx i2]; exact hshort)
      (fun j hj => by rw [hidx j]; exact hnorm (j + 1) (by omega))
      (by omega)
    refine ⟨st2, c2, ?_⟩
    rw [runLoop]
    simp only [pureFetch, hp]
    rw [if_neg (by omega)]
    rw [hrec, range_map_shift]

theorem selectByMd5_eq_none_iff (st : Store) (h : String) :
    selectByMd5 st h = none ↔ h ∉ rowHashes st := by
  rw [← selectByMd5_isSome_iff]
  cases selectByMd5 st h <;> simp

theorem selectByKey_eq_none_iff (st : Store) (k : String) :
    selectByKey st k = none ↔ k ∉ rowKeys st := by
  rw [← selectByKey_isSome_iff]
  cases selectByKey st k <;> simp

/-! ## Concrete fixtures used by witnesses and counterexamples -/

/-- A sample JIRA user. -/
def wUser : UserInfo := ⟨"Alice Smith", "acc-1"⟩

/-- A fully populated sample remote issue. -/
def wIssue1 : RemoteIssue :=
  { key := some "BSUP-1", assignee := some wUser, created := some "2024-01-02",
    creator := some wUser, description := some "desc", duedate := none,
    environment := none, issuetype := some ⟨"Task", "10001"⟩,
    labels := some ["a", "b"], lastViewed := none, priority := some "High",
    project := some "BSUP", reporter := some wUser, resolution := none,
    resolutiondate := none, status := some "Open", summary := some "sum",
    updated := some "2024-01-03", timeoriginalestimate := some 3600,
    aggregatetimeestimate := none, worklog := some [⟨"1h", "2024-01-02T10:00"⟩],
    timetracking := some (some (some "1h")), customfield_10065 := none }

/-- The normalized tuple of `wIssue1`. -/
def wData1 : Data :=
  { assignee := some "Alice Smith", assignee_id := some "acc-1",
    created := some "2024-01-02", creator := some "Alice Smith",
    description := some "desc", due_date := none, environment := none,
    issue_type := "Task", issue_key := "BSUP-1", issue_id := "10001",
    labels := "a, b", last_viewed := none, priority := "High",
    project := "BSUP", reporter := some "Alice Smith", resolution := none,
    resolution_date := none, status := some "Open", summary := some "sum",
    updated := some "2024-01-03", original_estimate := some 3600,
    remaining_estimate := none, worklog := "1h|started:(2024-01-02T10:00)",
    time_tracking := some "1h", isp := "None" }

/-- The fingerprint of `wData1`, checked against Python's
`hashlib.md5` on the same concatenation. -/
def wHash1 : String := "54087b6529e9e9314f50c23a66af3707"

/-- A sample remote issue whose guarded optional attributes are all null
but whose unguarded attributes are all present. -/
def wIssue8 : RemoteIssue :=
  { key := some "BSUP-8", assignee := none, created := some "2024-01-02",
    creator := none, description := none, duedate := none, environment := none,
    issuetype := some ⟨"Task", "10001"⟩, labels := some [], lastViewed := none,
    priority := some "High", project := some "BSUP", reporter := none,
    resolution := none, resolutiondate := none, status := some "Open",
    summary := some "s", updated := some "2024-01-03",
    timeoriginalestimate := none, aggregatetimeestimate := none,
    worklog := some [], timetracking := some none, customfield_10065 := none }

/-- `wIssue8` with a null priority attribute: the script's unguarded
`issue.fields.priority.name` dereference raises on it. -/
def wIssueNoPriority : RemoteIssue := { wIssue8 with priority := none }

/-! ## C1 — the upsert decision -/

/-- C1: for every record the decider returns exactly one of
skip/update/insert.  It skips, writing nothing, exactly when some row
carries the record's fingerprint — the fingerprint lookup is decisive
regardless of the identifier, so it is checked first; it overwrites the
rows with the record's key exactly when the fingerprint is absent but the
key present; it appends a new row exactly when both are absent. -/
theorem C1_upsert_decider (st : Store) (i : RemoteIssue) (d : Data)
    (hn : normalizeIssue i = Except.ok d) :
    (processIssue st i = Except.ok (st, UpsertAction.skip) ↔ fpOf d ∈ rowHashes st) ∧
    (processIssue st i = Except.ok (updateRows st d (fpOf d), UpsertAction.update) ↔
      fpOf d ∉ rowHashes st ∧ d.issue_key ∈ rowKeys st) ∧
    (processIssue st i = Except.ok (st ++ [⟨d, fpOf d⟩], UpsertAction.insert) ↔
      fpOf d ∉ rowHashes st ∧ d.issue_key ∉ rowKeys st) ∧
    (processIssue st i = Except.ok (st, UpsertAction.skip) ∨
     processIssue st i = Except.ok (updateRows st d (fpOf d), UpsertAction.update) ∨
     processIssue st i = Except.ok (st ++ [⟨d, fpOf d⟩], UpsertAction.insert)) := by
  have heq := processIssue_eq st i d hn
  cases hmd : selectByMd5 st (fpOf d) with
  | some row =>
    simp only [hmd] at heq
    have hfp : fpOf d ∈ rowHashes st := by
      rw [← selectByMd5_isSome_iff, hmd]
      rfl
    refine ⟨?_, ?_, ?_, ?_⟩ <;> simp [heq, hfp]
  | none =>
    simp only [hmd] at heq
    have hfp : fpOf d ∉ rowHashes st := (selectByMd5_eq_none_iff st _).mp hmd
    cases hk : selectByKey st d.issue_key with
    | some row =>
      simp only [hk] at heq
      have hkey : d.issue_key ∈ rowKeys st := by
        rw [← selectByKey_isSome_iff, hk]
        rfl
      refine ⟨?_, ?_, ?_, ?_⟩ <;> simp [heq, hfp, hkey]
    | none =>
      simp only [hk] at heq
      have hkey : d.issue_key ∉ rowKeys st := (selectByKey_eq_none_iff st _).mp hk
      refine ⟨?_, ?_, ?_, ?_⟩ <;> simp [heq, hfp, hkey]

/-- Witness for C1 at a concrete record and the empty store. -/
theorem C1_witness :
    normalizeIssue wIssue1 = Except.ok wData1 ∧
    ((processIssue [] wIssue1 = Except.ok ([], UpsertAction.skip) ↔
        fpOf wData1 ∈ rowHashes []) ∧
      (processIssue [] wIssue1 =
          Except.ok (updateRows [] wData1 (fpOf wData1), UpsertAction.update) ↔
        fpOf wData1 ∉ rowHashes [] ∧ wData1.issue_key ∈ rowKeys []) ∧
      (processIssue [] wIssue1 =
          Except.ok ([] ++ [⟨wData1, fpOf wData1⟩], UpsertAction.insert) ↔
        fpOf wData1 ∉ rowHashes [] ∧ wData1.issue_key ∉ rowKeys []) ∧
      (processIssue [] wIssue1 = Except.ok ([], UpsertAction.skip) ∨
       processIssue [] wIssue1 =
          Except.ok (updateRows [] wData1 (fpOf wData1), UpsertAction.update) ∨
       processIssue [] wIssue1 =
          Except.ok ([] ++ [⟨wData1, fpOf wData1⟩], UpsertAction.insert))) :=
  ⟨by rfl, C1_upsert_decider [] wIssue1 wData1 (by rfl)⟩

/-! ## C7 — null fields are skipped by the fingerprint -/

theorem md5args_null_empty (pre post : List (Option String)) :
    md5args (pre ++ none :: post) = md5args (pre ++ some "" :: post) := by
  induction pre with
  | nil =>
    show md5args (none :: post) = md5args (some "" :: post)
    rw [md5args, md5args, String.empty_append]
  | cons a rest ih =>
    cases a with
    | none =>
      show md5args (none :: (rest ++ none :: post)) =
        md5args (none :: (rest ++ some "" :: post))
      rw [md5args, md5args, ih]
    | some s =>
      show md5args (some s :: (rest ++ none :: post)) =
        md5args (some s :: (rest ++ some "" :: post))
      rw [md5args, md5args, ih]

/-- A normalized record with every optional field null. -/
def wData7a : Data :=
  { assignee := none, assignee_id := none, created := none, creator := none,
    description := none, due_date := none, environment := none,
    issue_type := "Task", issue_key := "BSUP-7", issue_id := "10001",
    labels := "", last_viewed := none, priority := "High", project := "BSUP",
    reporter := none, resolution := none, resolution_date := none,
    status := none, summary := none, updated := none,
    original_estimate := none, remaining_estimate := none,
    worklog := "", time_tracking := none, isp := "None" }

/-- `wData7a` with the null description replaced by the empty string. -/
def wData7b : Data := { wData7a with description := some "" }

/-- C7: the fingerprint skips null fields entirely — replacing a null
field anywhere in the argument tuple by the empty string leaves the
digest unchanged, so the two distinct records `wData7a` and `wData7b`,
differing only in a null versus empty-string field, collide. -/
theorem C7_fingerprint_skips_null :
    (∀ pre post, calculate_md5 (pre ++ none :: post) =
      calculate_md5 (pre ++ some "" :: post)) ∧
    wData7a ≠ wData7b ∧ fpOf wData7a = fpOf wData7b := by
  refine ⟨fun pre post => congrArg md5hex (md5args_null_empty pre post), by decide, ?_⟩
  show md5hex (md5args (toArgs wData7a)) = md5hex (md5args (toArgs wData7b))
  exact congrArg md5hex (by decide)

/-! ## C9 — the query builder -/

/-- C9 (amended): the query builder is a pure function producing the
time-window-and-project filter template, with no validation at all: it
agrees with the spec's validating builder on non-empty projects, and on
the empty project it still produces a query instead of rejecting. -/
theorem C9_query_builder (ds p : String) :
    jql_query ds p = "createdDate >= '" ++ ds ++ "' AND updated >= '" ++ ds ++
        "' AND project=" ++ p ∧
    (p ≠ "" → jqlQuerySpec ds p = some (jql_query ds p)) := by
  refine ⟨rfl, fun hp => ?_⟩
  unfold jqlQuerySpec
  rw [if_neg hp]

/-- C9 counterexample: an empty project identifier is not rejected — the
source happily builds a dangling `project=` clause where the spec's
contract demands rejection. -/
theorem C9_counterexample :
    jql_query "2024-01-01" "" =
      "createdDate >= '2024-01-01' AND updated >= '2024-01-01' AND project=" ∧
    jqlQuerySpec "2024-01-01" "" = none := ⟨by decide, by decide⟩

/-- Witness for C9 at a concrete date and project. -/
theorem C9_witness :
    jql_query "2024-01-01" "BSUP" =
      "createdDate >= '2024-01-01' AND updated >= '2024-01-01' AND project=BSUP" ∧
    jqlQuerySpec "2024-01-01" "BSUP" = some (jql_query "2024-01-01" "BSUP") := by
  have h := C9_query_builder "2024-01-01" "BSUP"
  exact ⟨by decide, h.2 (by decide)⟩

/-! ## C10 — separator-free concatenation collides -/

/-- A remote issue whose assignee has display name `ab` and account `c`. -/
def wIssue10a : RemoteIssue :=
  { wIssue8 with key := some "BSUP-10", assignee := some ⟨"ab", "c"⟩ }

/-- The same issue except the assignee has display name `a`, account `bc`. -/
def wIssue10b : RemoteIssue :=
  { wIssue8 with key := some "BSUP-10", assignee := some ⟨"a", "bc"⟩ }

/-- The normalized tuple of `wIssue10a`. -/
def wData10a : Data :=
  { assignee := some "ab", assignee_id := some "c", created := some "2024-01-02",
    creator := none, description := none, due_date := none, environment := none,
    issue_type := "Task", issue_key := "BSUP-10", issue_id := "10001",
    labels := "", last_viewed := none, priority := "High", project := "BSUP",
    reporter := none, resolution := none, resolution_date := none,
    status := some "Open", summary := some "s", updated := some "2024-01-03",
    original_estimate := none, remaining_estimate := none, worklog := "",
    time_tracking := none, isp := "None" }

/-- The normalized tuple of `wIssue10b`. -/
def wData10b : Data := { wData10a with assignee := some "a", assignee_id := some "bc" }

/-- C10: the fingerprint digests the separator-free concatenation, so the
distinct tuples with adjacent fields `("ab", "c")` and `("a", "bc")`
share a fingerprint, and feeding both records to the engine stores only
the first — the second is skipped, never stored. -/
theorem C10_concat_collision :
    wData10a ≠ wData10b ∧
    calculate_md5 (toArgs wData10a) = calculate_md5 (toArgs wData10b) ∧
    processRecords [] Counts.zero [wIssue10a, wIssue10b] =
      Except.ok ([⟨wData10a, fpOf wData10a⟩], ⟨1, 0, 1⟩) := by
  refine ⟨by decide, congrArg md5hex (by decide), by decide⟩

/-! ## C3 — at most one row per issue key -/

/-- C3: the per-record upsert decision preserves the predicate that no
two rows share an issue key (skip writes nothing, update rewrites rows
in place keyed by the issue key, insert only fires when the key is
absent), and therefore any `update` run that returns normally preserves
it on the committed store — even though the table declares no uniqueness
constraint. -/
theorem C3_at_most_one_row :
    (∀ (st : Store) (i : RemoteIssue) (st2 : Store) (a : UpsertAction),
      uniqueKeys st → processIssue st i = Except.ok (st2, a) → uniqueKeys st2) ∧
    (∀ (email token : Option String) (fetch : Nat → Except String (List RemoteIssue))
       (db : Store) (fuel : Nat) (res : RunResult),
      uniqueKeys db → update email token fetch db fuel = Except.ok (some res) →
      uniqueKeys res.committed) :=
  ⟨fun st i st2 a hu h => processIssue_uniqueKeys st i st2 a hu h,
   fun email token fetch db fuel res hu h =>
     update_uniqueKeys email token fetch db fuel res hu h⟩

/-- A one-row store used by the C3 witness. -/
def wDb3 : Store := [⟨wData1, "oldhash3"⟩]

/-- Witness for C3: a concrete run over an exhausted remote on a one-row
store keeps the per-key uniqueness. -/
theorem C3_witness :
    uniqueKeys wDb3 ∧
    update (some "e") (some "t") (listFetch [] 100) wDb3 2 =
      Except.ok (some ⟨wDb3, none, true, some ⟨0, 0, 0⟩⟩) ∧
    uniqueKeys (RunResult.mk wDb3 none true (some ⟨0, 0, 0⟩)).committed :=
  ⟨by decide, by decide,
   C3_at_most_one_row.2 (some "e") (some "t") (listFetch [] 100) wDb3 2
     ⟨wDb3, none, true, some ⟨0, 0, 0⟩⟩ (by decide) (by decide)⟩

/-! ## C4 — no commit after a mid-run error -/

/-- C4: whenever the pagination loop raises (a fetch, normalization or
decision error at any point), `update` never reaches the commit: the
committed store after the run is exactly the store from before the run,
the error is only logged, and the health check is not pinged. -/
theorem C4_atomic_rollback (email token : Option String)
    (fetch : Nat → Except String (List RemoteIssue)) (db : Store) (fuel : Nat)
    (e : String) (hcred : ¬(email.isNone ∨ token.isNone))
    (hrl : runLoop fetch 100 0 db Counts.zero [] fuel = some (Except.error e)) :
    update email token fetch db fuel = Except.ok (some ⟨db, some e, false, none⟩) := by
  unfold update
  rw [if_neg hcred, hrl]

/-- A fetch that serves pages from `remote` until the offset reaches
`failAt`, then raises: models the third page of a three-page run
failing when `failAt = 200`. -/
def failFetch (remote : List RemoteIssue) (failAt : Nat) :
    Nat → Except String (List RemoteIssue) :=
  fun startAt =>
    if failAt ≤ startAt then Except.error "fetch failed"
    else listFetch remote 100 startAt

/-- A 247-issue remote: pages of 100, 100 and 47. -/
def wRemote247 : List RemoteIssue := List.replicate 247 wIssue1

theorem runLoop_fail_third (remote : List RemoteIssue) (h200 : 200 ≤ remote.length)
    (hnorm : ∀ r ∈ remote, ∃ d, normalizeIssue r = Except.ok d)
    (fuel : Nat) (hf : 3 ≤ fuel) (db : Store) :
    runLoop (failFetch remote 200) 100 0 db Counts.zero [] fuel =
      some (Except.error "fetch failed") := by
  obtain ⟨f3, rfl⟩ : ∃ f3, fuel = f3 + 3 := ⟨fuel - 3, by omega⟩
  have hpage0 : ∀ r ∈ (remote.drop 0).take 100, ∃ d, normalizeIssue r = Except.ok d :=
    fun r hr => hnorm r (List.mem_of_mem_drop (List.mem_of_mem_take hr))
  obtain ⟨st1, c1, hp0⟩ := processRecords_isOk _ db Counts.zero hpage0
  have hlen0 : ((remote.drop 0).take 100).length = 100 := by
    rw [List.length_take, List.length_drop]
    omega
  have hpage1 : ∀ r ∈ (remote.drop 100).take 100, ∃ d, normalizeIssue r = Except.ok d :=
    fun r hr => hnorm r (List.mem_of_mem_drop (List.mem_of_mem_take hr))
  obtain ⟨st2, c2, hp1⟩ := processRecords_isOk _ st1 c1 hpage1
  have hlen1 : ((remote.drop 100).take 100).length = 100 := by
    rw [List.length_take, List.length_drop]
    omega
  show runLoop (failFetch remote 200) 100 0 db Counts.zero [] (f3 + 2 + 1) = _
  rw [runLoop]
  have hf0 : failFetch remote 200 0 = Except.ok ((remote.drop 0).take 100) := by
    unfold failFetch listFetch
    rw [if_neg (by omega)]
  simp only [hf0, hp0, hlen0]
  rw [if_neg (by omega)]
  show runLoop (failFetch remote 200) 100 100 st1 c1 [0] (f3 + 1 + 1) = _
  rw [runLoop]
  have hf1 : failFetch remote 200 100 = Except.ok ((remote.drop 100).take 100) := by
    unfold failFetch listFetch
    rw [if_neg (by omega)]
  simp only [hf1, hp1, hlen1]
  rw [if_neg (by omega)]
  show runLoop (failFetch remote 200) 100 200 st2 c2 [0, 100] (f3 + 1) = _
  rw [runLoop]
  have hf2 : failFetch remote 200 200 = Except.error "fetch failed" := by
    unfold failFetch
    rw [if_pos (by omega)]
  rw [hf2]

/-- A one-row store used by the C4 witness. -/
def wDb4 : Store := [⟨wData1, "oldhash4"⟩]

/-- Witness for C4: the fetch of the third page of a three-page run
fails, and the committed store still equals the store from before the
run — none of the two hundred records of pages one and two survive. -/
theorem C4_witness :
    update (some "e") (some "t") (failFetch wRemote247 200) wDb4 5 =
      Except.ok (some ⟨wDb4, some "fetch failed", false, none⟩) :=
  C4_atomic_rollback (some "e") (some "t") (failFetch wRemote247 200) wDb4 5
    "fetch failed" (by simp)
    (runLoop_fail_third wRemote247 (by decide)
      (fun r hr => ⟨wData1, by
        have hr2 : r ∈ List.replicate 247 wIssue1 := hr
        rw [List.eq_of_mem_replicate hr2]
        rfl⟩)
      5 (by omega) wDb4)

/-! ## C5 — error propagation policy -/

/-- When the pre-`try` setup succeeds, `updateFull` is exactly `update`:
the claims stated about `update` are statements about the
setup-succeeded slice of the full model. -/
theorem updateFull_setup_ok (email token : Option String)
    (fetch : Nat → Except String (List RemoteIssue)) (db : Store) (fuel : Nat) :
    updateFull email token none fetch db fuel = update email token fetch db fuel := by
  unfold updateFull update
  by_cases hc : email.isNone ∨ token.isNone
  · rw [if_pos hc]
  · rw [if_neg hc]

/-- C5 (amended): the errors raised before the broad `try` — the missing
credential validation, and the setup steps (JIRA client construction,
store connection, table creation) — propagate out of the sync operation
to the caller.  Every error raised inside the `try` (fetch,
normalization, write) aborts the pass before the commit but is caught by
the broad `except` and merely logged: the run returns normally, so the
caller does not observe the pass as failed — any error that does escape
is the credential error or a setup error, never one from inside the
loop. -/
theorem C5_error_policy (email token : Option String) (setup : SetupOutcome)
    (fetch : Nat → Except String (List RemoteIssue)) (db : Store) (fuel : Nat) :
    ((email.isNone ∨ token.isNone) →
      updateFull email token setup fetch db fuel =
        Except.error "Jira email and token are required") ∧
    (∀ e, ¬(email.isNone ∨ token.isNone) → setup = some e →
      updateFull email token setup fetch db fuel = Except.error e) ∧
    (∀ e, ¬(email.isNone ∨ token.isNone) → setup = none →
      runLoop fetch 100 0 db Counts.zero [] fuel = some (Except.error e) →
      updateFull email token setup fetch db fuel =
        Except.ok (some ⟨db, some e, false, none⟩)) ∧
    (∀ msg, updateFull email token setup fetch db fuel = Except.error msg →
      msg = "Jira email and token are required" ∨ setup = some msg) := by
  refine ⟨fun hc => ?_, fun e hc hs => ?_, fun e hc hs hrl => ?_, fun msg h => ?_⟩
  · unfold updateFull
    rw [if_pos hc]
  · unfold updateFull
    rw [if_neg hc, hs]
  · unfold updateFull
    rw [if_neg hc, hs, hrl]
  · unfold updateFull at h
    by_cases hc : email.isNone ∨ token.isNone
    · rw [if_pos hc] at h
      cases h
      exact Or.inl rfl
    · rw [if_neg hc] at h
      cases hs : setup with
      | some e =>
        rw [hs] at h
        cases h
        exact Or.inr rfl
      | none =>
        rw [hs] at h
        cases hrl : runLoop fetch 100 0 db Counts.zero [] fuel with
        | none => rw [hrl] at h; cases h
        | some r =>
          rw [hrl] at h
          cases r with
          | error e => cases h
          | ok q =>
            obtain ⟨st, c, off⟩ := q
            cases h

/-- A fetch whose very first call fails. -/
def boomFetch : Nat → Except String (List RemoteIssue) :=
  fun _ => Except.error "boom"

/-- C5 counterexample: a fetch error does not propagate to the caller.
With the pre-`try` setup succeeded, the run aborts uncommitted on the
fetch error, but returns a normal (`Except.ok`) result with the error
only logged — the claim's propagation to the caller does not happen. -/
theorem C5_counterexample :
    updateFull (some "e") (some "t") none boomFetch [] 5 =
      Except.ok (some ⟨[], some "boom", false, none⟩) := by decide

/-- Witness for C5 at concrete inputs: the credential error and a setup
error (a failing client construction) both propagate; a fetch error is
logged and swallowed. -/
theorem C5_witness :
    updateFull none (some "t") none boomFetch [] 3 =
      Except.error "Jira email and token are required" ∧
    updateFull (some "e2") (some "t2") (some "jira connection failed") boomFetch [] 3 =
      Except.error "jira connection failed" ∧
    updateFull (some "e2") (some "t2") none boomFetch [] 3 =
      Except.ok (some ⟨[], some "boom", false, none⟩) :=
  ⟨(C5_error_policy none (some "t") none boomFetch [] 3).1 (by simp),
   (C5_error_policy (some "e2") (some "t2") (some "jira connection failed") boomFetch
       [] 3).2.1 "jira connection failed" (by simp) rfl,
   (C5_error_policy (some "e2") (some "t2") none boomFetch [] 3).2.2.1 "boom"
     (by simp) rfl (by decide)⟩

/-! ## C6 — pagination termination -/

/-- C6: the loop's sole normal-termination condition is a page strictly
shorter than the requested size.  Forwards: whenever the loop returns
normally it fetched offsets `startAt, startAt+m, ...` (stepping by
exactly the page size), every page before the last was at least `m`
long, and the last was strictly shorter.  Backwards: if the page at
index `i` is the first short one and all records normalize, the loop
returns after exactly `i + 1` fetches — no further fetch call is made. -/
theorem C6_pagination_termination :
    (∀ (f : Nat → List RemoteIssue) (m fuel startAt : Nat) (st : Store) (c : Counts)
       (off : List Nat) (st2 : Store) (c2 : Counts) (off2 : List Nat),
      runLoop (pureFetch f) m startAt st c off fuel = some (Except.ok (st2, c2, off2)) →
      ∃ k, 0 < k ∧ off2 = off ++ (List.range k).map (fun j => startAt + m * j) ∧
        (∀ j, j + 1 < k → m ≤ (f (startAt + m * j)).length) ∧
        (∀ j, j + 1 = k → (f (startAt + m * j)).length < m)) ∧
    (∀ (f : Nat → List RemoteIssue) (i fuel : Nat) (st : Store) (c : Counts),
      (∀ j, j < i → 100 ≤ (f (100 * j)).length) →
      (f (100 * i)).length < 100 →
      (∀ j, j ≤ i → ∀ r ∈ f (100 * j), ∃ d, normalizeIssue r = Except.ok d) →
      i < fuel →
      ∃ st2 c2, runLoop (pureFetch f) 100 0 st c [] fuel =
        some (Except.ok (st2, c2, (List.range (i + 1)).map (fun j => 100 * j)))) := by
  constructor
  · intro f m fuel startAt st c off st2 c2 off2 h
    exact runLoop_pure_shape f m fuel startAt st c off st2 c2 off2 h
  · intro f i fuel st c hfull hshort hnorm hfuel
    have hfull2 : ∀ j, j < i → 100 ≤ (f (0 + 100 * j)).length := by
      intro j hj
      rw [Nat.zero_add]
      exact hfull j hj
    have hshort2 : (f (0 + 100 * i)).length < 100 := by
      rw [Nat.zero_add]
      exact hshort
    have hnorm2 : ∀ j, j ≤ i → ∀ r ∈ f (0 + 100 * j), ∃ d, normalizeIssue r = Except.ok d := by
      intro j hj
      rw [Nat.zero_add]
      exact hnorm j hj
    obtain ⟨st2, c2, heq⟩ :=
      runLoop_pure_terminates f 100 i fuel 0 st c [] hfull2 hshort2 hnorm2 hfuel
    refine ⟨st2, c2, ?_⟩
    rw [heq, List.nil_append]
    have hmaps : (List.range (i + 1)).map (fun j => 0 + 100 * j) =
        (List.range (i + 1)).map (fun j => 100 * j) :=
      List.map_congr_left (fun a _ => by omega)
    rw [hmaps]

/-- The final loop value, restricted to the fetched offsets. -/
def offsetsOf (r : Option (Except String (Store × Counts × List Nat))) : Option (List Nat) :=
  match r with
  | some (Except.ok (_, _, off)) => some off
  | _ => none

/-- The page function of a 247-issue remote: pages of 100, 100 and 47. -/
def wPages : Nat → List RemoteIssue :=
  fun startAt => (wRemote247.drop startAt).take 100

/-- Witness for C6: page sizes [100, 100, 47] with page size 100 fetch
exactly the offsets 0, 100, 200 and stop — no fourth fetch. -/
theorem C6_witness :
    offsetsOf (runLoop (pureFetch wPages) 100 0 [] Counts.zero [] 3) =
      some [0, 100, 200] := by
  obtain ⟨st2, c2, heq⟩ := C6_pagination_termination.2 wPages 2 3 [] Counts.zero
    (by decide) (by decide)
    (fun j hj r hr => ⟨wData1, by
      have hr1 : r ∈ (wRemote247.drop (100 * j)).take 100 := hr
      have hr2 : r ∈ List.replicate 247 wIssue1 :=
        List.mem_of_mem_drop (List.mem_of_mem_take hr1)
      rw [List.eq_of_mem_replicate hr2]
      rfl⟩)
    (by omega)
  rw [heq]
  rfl

/-! ## C2 — idempotence of a second pass -/

/-- C2 (amended): starting from an empty store, if a pass over records
with pairwise-distinct issue keys completes (no logged error), then the
identical pass run again commits the identical store, performing zero
inserts and zero updates — every record is skipped because its
fingerprint is already present.  (The empty-store and distinct-key
hypotheses are necessary: see the counterexample.) -/
theorem C2_second_pass_idempotent (email token : Option String)
    (remote : List RemoteIssue) (fuel : Nat) (res : RunResult)
    (hdist : List.Pairwise (fun a b => a.key ≠ b.key) remote)
    (hfuel : remote.length < fuel)
    (h1 : update email token (listFetch remote 100) [] fuel = Except.ok (some res))
    (hlog : res.logged = none) :
    update email token (listFetch remote 100) res.committed fuel =
      Except.ok (some ⟨res.committed, none, true, some ⟨0, 0, remote.length⟩⟩) := by
  by_cases hcred : email.isNone ∨ token.isNone
  · unfold update at h1
    rw [if_pos hcred] at h1
    cases h1
  · unfold update at h1
    rw [if_neg hcred] at h1
    have hrl := runLoop_listFetch_eq remote 100 (by omega) fuel 0 [] Counts.zero [] (by omega)
    rw [List.drop_zero] at hrl
    rw [hrl] at h1
    cases hp : processRecords [] Counts.zero remote with
    | error e =>
      simp only [hp] at h1
      simp only [Except.ok.injEq, Option.some.injEq] at h1
      rw [← h1] at hlog
      simp at hlog
    | ok p =>
      obtain ⟨st1, c1⟩ := p
      simp only [hp] at h1
      simp only [Except.ok.injEq, Option.some.injEq] at h1
      cases h1
      obtain ⟨hext, hfps⟩ := processRecords_fresh remote [] Counts.zero st1 c1
        (fun i hi hmem => by simp [rowKeys] at hmem) hdist hp
      have hnorms := processRecords_ok_normalize remote [] Counts.zero st1 c1 hp
      have hall : ∀ i ∈ remote, ∃ d, normalizeIssue i = Except.ok d ∧
          fpOf d ∈ rowHashes st1 := by
        intro i hi
        obtain ⟨d, hd⟩ := hnorms i hi
        exact ⟨d, hd, hfps i hi d hd⟩
      have hp2 := processRecords_all_skips remote st1 Counts.zero hall
      unfold update
      rw [if_neg hcred]
      have hrl2 := runLoop_listFetch_eq remote 100 (by omega) fuel 0 st1 Counts.zero []
        (by omega)
      rw [List.drop_zero] at hrl2
      rw [hrl2]
      simp only [hp2]
      simp [Counts.zero]

/-- Two observations of the same issue key with different content. -/
def wIssue2a : RemoteIssue := { wIssue1 with key := some "BSUP-2", summary := some "v1" }

/-- The second observation: same key as `wIssue2a`, different summary. -/
def wIssue2b : RemoteIssue := { wIssue1 with key := some "BSUP-2", summary := some "v2" }

/-- Run one pass, then a second pass over the same remote against the
committed store of the first; return the second pass's counters. -/
def secondPassCounts (remote : List RemoteIssue) (db : Store) (fuel : Nat) : Option Counts :=
  match update (some "e") (some "t") (listFetch remote 100) db fuel with
  | Except.ok (some r1) =>
    match update (some "e") (some "t") (listFetch remote 100) r1.committed fuel with
    | Except.ok (some r2) => r2.counts
    | _ => none
  | _ => none

/-- C2 counterexample: with the same issue key observed twice with
different content in one pass, the second pass over the identical remote
performs two updates (not zero) — each pass flip-flops the stored row
between the two contents, so the claim fails as stated. -/
theorem C2_counterexample :
    secondPassCounts [wIssue2a, wIssue2b] [] 3 = some ⟨0, 2, 0⟩ := by decide

/-- Witness for C2 at a one-record remote: the first pass inserts the
row, the second pass is pure skips. -/
theorem C2_witness :
    update (some "e") (some "t") (listFetch [wIssue1] 100) [] 2 =
      Except.ok (some ⟨[⟨wData1, wHash1⟩], none, true, some ⟨1, 0, 0⟩⟩) ∧
    update (some "e") (some "t") (listFetch [wIssue1] 100) [⟨wData1, wHash1⟩] 2 =
      Except.ok (some ⟨[⟨wData1, wHash1⟩], none, true, some ⟨0, 0, 1⟩⟩) := by
  constructor
  · decide
  · exact C2_second_pass_idempotent (some "e") (some "t") [wIssue1] 2
      ⟨[⟨wData1, wHash1⟩], none, true, some ⟨1, 0, 0⟩⟩
      (List.pairwise_singleton _ _) (by decide) (by decide) rfl

/-! ## C8 — the normalizer's totality -/

/-- The normalized record of a successfully normalized issue. -/
def dataOf (i : RemoteIssue) : Option Data := (normalizeIssue i).toOption

/-- The `data` tuple built from an issue whose unguarded attributes have
the given values, exactly as `normalizeIssue` builds it. -/
def normData (i : RemoteIssue) (it : IssueType) (k : String) (labs : List String)
    (pri proj stat : String) (wl : List WorklogEntry) (tt : Option (Option String)) : Data :=
  { assignee := i.assignee.map (fun u => u.displayName)
    assignee_id := i.assignee.map (fun u => u.accountId)
    created := i.created
    creator := i.creator.map (fun u => u.displayName)
    description := i.description
    due_date := i.duedate
    environment := i.environment
    issue_type := it.name
    issue_key := k
    issue_id := it.id
    labels := String.intercalate ", " labs
    last_viewed := i.lastViewed
    priority := pri
    project := proj
    reporter := i.reporter.map (fun u => u.displayName)
    resolution := i.resolution
    resolution_date := i.resolutiondate
    status := stat
    summary := i.summary
    updated := i.updated
    original_estimate := i.timeoriginalestimate
    remaining_estimate := i.aggregatetimeestimate
    worklog := joinWorklog wl
    time_tracking := (match tt with | some v => v | none => none)
    isp := strOfIsp i.customfield_10065 }

theorem normalizeIssue_eq_ok (i : RemoteIssue) (it : IssueType) (k : String)
    (labs : List String) (pri proj stat : String) (wl : List WorklogEntry)
    (tt : Option (Option String))
    (h1 : i.issuetype = some it) (h2 : i.key = some k) (h3 : i.labels = some labs)
    (h4 : i.priority = some pri) (h5 : i.project = some proj) (h6 : i.status = some stat)
    (h7 : i.worklog = some wl) (h8 : i.timetracking = some tt) :
    normalizeIssue i = Except.ok (normData i it k labs pri proj stat wl tt) := by
  unfold normalizeIssue normData
  rw [h1, h2, h3, h4, h5, h6, h7, h8]
  rfl

/-- C8 (amended): normalization succeeds whenever the unguarded nested
attributes (issue type, key, labels, priority, project, status, worklog
container, time-tracking container) are present, substituting null
placeholders for the guarded optional attributes (assignee and its
account, creator, reporter, resolution) when those are null.  It is not
total on all optional fields: a null priority (among others) makes it
raise — see the counterexample. -/
theorem C8_normalizer_totality (i : RemoteIssue)
    (h1 : i.issuetype.isSome = true) (h2 : i.key.isSome = true)
    (h3 : i.labels.isSome = true) (h4 : i.priority.isSome = true)
    (h5 : i.project.isSome = true) (h6 : i.status.isSome = true)
    (h7 : i.worklog.isSome = true) (h8 : i.timetracking.isSome = true) :
    (normalizeIssue i).isOk = true ∧
    (i.assignee = none → (dataOf i).map Data.assignee = some none ∧
      (dataOf i).map Data.assignee_id = some none) ∧
    (i.creator = none → (dataOf i).map Data.creator = some none) ∧
    (i.reporter = none → (dataOf i).map Data.reporter = some none) ∧
    (i.resolution = none → (dataOf i).map Data.resolution = some none) := by
  obtain ⟨it, hit⟩ := Option.isSome_iff_exists.mp h1
  obtain ⟨k, hk⟩ := Option.isSome_iff_exists.mp h2
  obtain ⟨labs, hlabs⟩ := Option.isSome_iff_exists.mp h3
  obtain ⟨pri, hpri⟩ := Option.isSome_iff_exists.mp h4
  obtain ⟨proj, hproj⟩ := Option.isSome_iff_exists.mp h5
  obtain ⟨stat, hstat⟩ := Option.isSome_iff_exists.mp h6
  obtain ⟨wl, hwl⟩ := Option.isSome_iff_exists.mp h7
  obtain ⟨tt, htt⟩ := Option.isSome_iff_exists.mp h8
  have hn := normalizeIssue_eq_ok i it k labs pri proj stat wl tt
    hit hk hlabs hpri hproj hstat hwl htt
  refine ⟨by rw [hn]; rfl, fun ha => ?_, fun hc => ?_, fun hr => ?_, fun hres => ?_⟩
  · unfold dataOf
    rw [hn]
    simp [normData, Except.toOption, ha]
  · unfold dataOf
    rw [hn]
    simp [normData, Except.toOption, hc]
  · unfold dataOf
    rw [hn]
    simp [normData, Except.toOption, hr]
  · unfold dataOf
    rw [hn]
    simp [normData, Except.toOption, hres]

/-- C8 counterexample: a remote record with a null priority — an
optional field by the claim's own list — makes normalization raise
instead of substituting a null placeholder. -/
theorem C8_counterexample :
    normalizeIssue wIssueNoPriority = Except.error "AttributeError: priority" := by decide

/-- Witness for C8: a record with all guarded optional attributes null
normalizes without error, with null placeholders in the corresponding
tuple slots. -/
theorem C8_witness :
    (normalizeIssue wIssue8).isOk = true ∧
    (dataOf wIssue8).map Data.assignee = some none ∧
    (dataOf wIssue8).map Data.assignee_id = some none ∧
    (dataOf wIssue8).map Data.creator = some none ∧
    (dataOf wIssue8).map Data.reporter = some none ∧
    (dataOf wIssue8).map Data.resolution = some none := by
  have h := C8_normalizer_totality wIssue8 (by decide) (by decide) (by decide)
    (by decide) (by decide) (by decide) (by decide) (by decide)
  exact ⟨h.1, (h.2.1 rfl).1, (h.2.1 rfl).2, h.2.2.1 rfl, h.2.2.2.1 rfl, h.2.2.2.2 rfl⟩
